/-
Verification of the vladiate discovery-and-dispatch engine
(`src/vladiate/main.py`) against its natural-language specification.

The Python module is shallowly embedded below: filesystem queries become an
explicit `FileSystem` record of Boolean-valued oracles, the global
`sys.path` list becomes explicit list state threaded through the load
routine, the multiprocessing result queue becomes a list parameter (workers
push outcomes in a nondeterministic order, so the post-drain queue content
is supplied by the environment), and Python exceptions (the `assert` in
`find_vladfile`) become `Except`.
-/
import Mathlib

namespace Vladiate

/-- Environment oracle for the `os.path` queries the program performs.
`pathExists`, `isdir` model `os.path.exists` / `os.path.isdir`;
`expanduser` and `abspath` model the corresponding `os.path` functions,
whose exact behavior depends on the process environment and are therefore
kept opaque. -/
structure FileSystem where
  pathExists : String → Bool
  isdir : String → Bool
  expanduser : String → String
  abspath : String → String

/-- Python's `s.startswith(pre)`, computed on the character lists. -/
def strStartsWith (s pre : String) : Bool :=
  pre.toList.isPrefixOf s.toList

/-- Python's `s.endswith(suffix)`, computed on the character lists. -/
def strEndsWith (s suffix : String) : Bool :=
  suffix.toList.isSuffixOf s.toList

/-- `os.path.join(a, b)` for POSIX paths, restricted to the shapes the
program produces (one directory, one component). -/
def joinPath (a b : String) : String :=
  if strStartsWith b "/" then b
  else if a = "" then b
  else if strEndsWith a "/" then a ++ b
  else a ++ "/" ++ b

/-- Truthiness of `os.path.dirname(s)`: nonempty exactly when `s` contains
a path separator. -/
def has_dirname (s : String) : Bool := s.toList.contains '/'

/-- `_is_package(path)` from the source: an existing directory holding an
`__init__.py` marker file. -/
def _is_package (fs : FileSystem) (path : String) : Bool :=
  fs.isdir path && fs.pathExists (joinPath path "__init__.py")

/-- The candidate loop shared by both branches of `find_vladfile`:
`resolve` is either `os.path.expanduser` (path-like names) or a join with
the search root (bare names). A candidate is accepted when it exists and
either carries the `.py` extension or is a package directory; the first
accepted candidate's absolute path is returned. -/
def findAccepted (fs : FileSystem) (resolve : String → String) :
    List String → Option String
  | [] => none
  | name :: rest =>
    let p := resolve name
    if fs.pathExists p && (strEndsWith name ".py" || _is_package fs p) then
      some (fs.abspath p)
    else
      findAccepted fs resolve rest

/-- `find_vladfile(vladfile, path='.')`. The leading `assert
os.path.isdir(path)` is modeled as the `Except.error` case; `Except.ok
none` is the implicit `return None` when no candidate matched. -/
def find_vladfile (fs : FileSystem) (vladfile : String) (path : String) :
    Except String (Option String) :=
  if fs.isdir path then
    let names :=
      if strEndsWith vladfile ".py" then [vladfile]
      else [vladfile, vladfile ++ ".py"]
    if has_dirname vladfile then
      .ok (findAccepted fs (fun name => fs.expanduser name) names)
    else
      .ok (findAccepted fs (fun name => joinPath path name) names)
  else
    .error "AssertionError"

/-- Drop trailing `/` characters. -/
def rstripSlash (l : List Char) : List Char :=
  (l.reverse.dropWhile (· = '/')).reverse

/-- The directory component of `os.path.split(p)` (POSIX): everything up
to and including the last separator, with trailing separators stripped
unless the head consists only of separators. -/
def splitDir (p : String) : String :=
  let cs := p.toList
  let revIdx := cs.reverse.findIdx (· = '/')
  if revIdx = cs.length then ""
  else
    let head := cs.take (cs.length - revIdx)
    if head.all (· = '/') then String.mk head
    else String.mk (rstripSlash head)

/-- The evolution of the global `sys.path` list across `load_vladfile
(path)`. `importSucceeds` records whether `__import__` raises: on an
exception the function is abandoned mid-way, so the returned list is the
state at the raise point; on success the two restoration steps (`del
sys.path[0]` when the directory was freshly inserted, re-insertion at the
original index followed by `del sys.path[0]` when it was moved to the
front) run exactly as written in the source. -/
def load_vladfile_sysPath (sysPath : List String) (path : String)
    (importSucceeds : Bool) : List String :=
  let directory := splitDir path
  if directory ∈ sysPath then
    let i := sysPath.indexOf directory
    if i ≠ 0 then
      let afterSetup := (directory :: sysPath).eraseIdx (i + 1)
      if importSucceeds then
        (afterSetup.insertIdx (i + 1) directory).eraseIdx 0
      else afterSetup
    else sysPath
  else
    let afterSetup := directory :: sysPath
    if importSucceeds then afterSetup.eraseIdx 0 else afterSetup

/-- A top-level member of the loaded module, seen through the attributes
`is_vlad` inspects: whether it is a class, whether it is a `Vlad`
subclass, its `source` attribute (`none` = attribute absent; truthiness of
the attribute value is emptiness of the string), its `validators`
attribute (`none` = absent), and — for the dispatch model — the Boolean
outcome its `validate()` call produces. -/
structure PyClass where
  isclass : Bool
  isVladSubclass : Bool
  source : Option String
  validators : Option (List String)
  validateResult : Bool
deriving DecidableEq, Repr

/-- Python truthiness of the (string-valued) `source` attribute. -/
def truthySource : Option String → Bool
  | none => false
  | some s => s ≠ ""

/-- `is_vlad((name, item))` from the source, with the conjuncts in source
order: `inspect.isclass(item) and issubclass(item, Vlad) and
hasattr(item, "source") and getattr(item, "source") and
hasattr(item, "validators") and not name.startswith('_')`. -/
def is_vlad (tup : String × PyClass) : Bool :=
  tup.2.isclass && tup.2.isVladSubclass &&
  tup.2.source.isSome && truthySource tup.2.source &&
  tup.2.validators.isSome && !strStartsWith tup.1 "_"

/-- `dict(filter(is_vlad, vars(imported).items()))`: the discovered
mapping, as the association list of surviving `(name, member)` pairs.
`vars()` of a module has pairwise-distinct keys, so the `dict`
construction is the identity on the filtered pairs. -/
def discover (moduleVars : List (String × PyClass)) :
    List (String × PyClass) :=
  moduleVars.filter is_vlad

/-- `os.EX_OK`. -/
def EX_OK : Nat := 0
/-- `os.EX_DATAERR`. -/
def EX_DATAERR : Nat := 65
/-- `os.EX_NOINPUT`. -/
def EX_NOINPUT : Nat := 66
/-- `os.EX_UNAVAILABLE`. -/
def EX_UNAVAILABLE : Nat := 69

/-- `set(arguments.vlads) - set(vlads.keys())`, as the deduplicated list
of requested names absent from the discovered keys (set semantics: the
theorems below use only its membership). -/
def select_missing (discovered : List (String × PyClass))
    (requested : List String) : List String :=
  requested.dedup.filter (fun n => !(discovered.map Prod.fst).contains n)

/-- `names = set(arguments.vlads) & set(vlads.keys());
[vlads[n] for n in names]`, keeping each class paired with its name so the
dispatch trace can record which units ran. Iteration order over the Python
set is implementation-defined; it is determinized here as deduplicated
request order. -/
def select_pairs (discovered : List (String × PyClass))
    (requested : List String) : List (String × PyClass) :=
  (requested.dedup.filter (fun n => (discovered.map Prod.fst).contains n)).filterMap
    (fun n => (discovered.lookup n).map (fun c => (n, c)))

/-- The pool sizing expression `arguments.processes if arguments.processes
<= len(vlad_classes) else len(vlad_classes)` (lines 206-210). -/
def pool_size (processes : Int) (unitCount : Nat) : Int :=
  if processes ≤ unitCount then processes else unitCount

/-- The concurrent-mode epilogue (lines 212-217): one `get_nowait` on the
result queue — a falsy outcome yields `EX_DATAERR`, an `Empty` exception
is swallowed — then `return os.EX_OK`. -/
def concurrent_exit (queue : List Bool) : Nat :=
  match queue with
  | [] => EX_OK
  | b :: _ => if !b then EX_DATAERR else EX_OK

/-- The CLI arguments `main` consumes. `processes` is a Python `int`. -/
structure Arguments where
  vlads : List String
  vladfile : String
  list_commands : Bool
  show_version : Bool
  processes : Int
deriving DecidableEq, Repr

/-- Observable outcome of one `main()` invocation: the value `main`
returns (`none` = the implicit `return None` when the sequential branch
falls off the end of the function; `exit(None)` then terminates the
process with status 0), the names of the units whose `validate()` was
invoked, in invocation/submission order, and the worker-pool size when a
pool was constructed. -/
structure RunResult where
  exitCode : Option Nat
  executed : List String
  poolSize : Option Int
deriving DecidableEq, Repr

/-- `main()` (lines 159-217). `moduleVars` stands for `vars(imported)` of
the successfully imported vladfile (an import error would propagate out of
`load_vladfile` uncaught and is outside this model); `queue` is the
content of the shared `result_queue` after the pool drains, in the
nondeterministic order the workers pushed. The `assert` inside
`find_vladfile` propagates as the `Except.error` case. -/
def main (fs : FileSystem) (args : Arguments)
    (moduleVars : List (String × PyClass)) (queue : List Bool) :
    Except String RunResult :=
  if args.show_version then .ok ⟨some EX_OK, [], none⟩
  else
    match find_vladfile fs args.vladfile "." with
    | .error e => .error e
    | .ok none => .ok ⟨some EX_NOINPUT, [], none⟩
    | .ok (some _) =>
      let vlads := discover moduleVars
      if args.list_commands then .ok ⟨some EX_OK, [], none⟩
      else if vlads.isEmpty then .ok ⟨some EX_NOINPUT, [], none⟩
      else
        let selection : Except Nat (List (String × PyClass)) :=
          if !args.vlads.isEmpty then
            if !(select_missing vlads args.vlads).isEmpty then
              .error EX_UNAVAILABLE
            else .ok (select_pairs vlads args.vlads)
          else .ok vlads
        match selection with
        | .error code => .ok ⟨some code, [], none⟩
        | .ok vlad_classes =>
          if args.processes = 1 then
            -- `for vlad in vlad_classes: vlad(source=vlad.source)
            -- .validate()` — every unit runs, each outcome is discarded,
            -- and the function falls through with no return statement.
            .ok ⟨none, vlad_classes.map Prod.fst, none⟩
          else
            let ps := pool_size args.processes vlad_classes.length
            .ok ⟨some (concurrent_exit queue),
                 vlad_classes.map Prod.fst, some ps⟩

/-- Sample environment for concrete evaluations: a current directory `.`
containing exactly the file `./vladfile.py`. -/
def sampleFS : FileSystem where
  pathExists := fun p => p == "./vladfile.py"
  isdir := fun p => p == "."
  expanduser := fun p => p
  abspath := fun p => p

/-- Sample environment with no directories at all. -/
def noDirFS : FileSystem where
  pathExists := fun _ => false
  isdir := fun _ => false
  expanduser := fun p => p
  abspath := fun p => p

/-- A well-formed unit whose `validate()` reports failure. -/
def failingVlad : PyClass :=
  { isclass := true, isVladSubclass := true, source := some "people.csv",
    validators := some ["UniqueValidator"], validateResult := false }

/-- A well-formed unit whose `validate()` reports success. -/
def passingVlad : PyClass :=
  { isclass := true, isVladSubclass := true, source := some "people.csv",
    validators := some ["UniqueValidator"], validateResult := true }

/-- A unit satisfying every `is_vlad` conjunct but carrying an empty
`validators` collection. -/
def emptyValidatorsVlad : PyClass :=
  { isclass := true, isVladSubclass := true, source := some "people.csv",
    validators := some [], validateResult := true }

section Theorems

/-- Re-inserting the element removed at position `i` restores the list. -/
theorem insertIdx_eraseIdx_self :
    ∀ (l : List String) (i : Nat) (h : i < l.length),
      (l.eraseIdx i).insertIdx i (l.get ⟨i, h⟩) = l
  | _ :: _, 0, _ => rfl
  | a :: t, i + 1, h => by
    simp only [List.eraseIdx_cons_succ, List.insertIdx_succ_cons,
      List.get_cons_succ]
    exact congrArg (a :: ·) (insertIdx_eraseIdx_self t i (Nat.lt_of_succ_lt_succ h))

/-- C1 counterexample: the claim asserts `sys.path` is restored even when
the import raises, but the restoration code sits after `__import__` with
no `try`/`finally`: when the import of `/tmp/vladfile.py` raises with
`sys.path = ["a"]`, the freshly inserted directory `/tmp` is left at the
front. -/
theorem C1_cex_sysPath_leaks_on_import_error :
    load_vladfile_sysPath ["a"] "/tmp/vladfile.py" false ≠ ["a"] := by
  decide

/-- C1 (amended): when the import succeeds, `load_vladfile` restores the
global search-path list to exactly its pre-call content and order — both
in the fresh-insert case and in the move-to-front case. -/
theorem C1_sysPath_restored_on_success (sysPath : List String) (path : String) :
    load_vladfile_sysPath sysPath path true = sysPath := by
  unfold load_vladfile_sysPath
  by_cases hmem : splitDir path ∈ sysPath
  · rw [if_pos hmem]
    by_cases hi : sysPath.indexOf (splitDir path) = 0
    · rw [if_neg (by simp [hi])]
    · rw [if_pos hi, if_pos rfl]
      have hlt : sysPath.indexOf (splitDir path) < sysPath.length :=
        List.indexOf_lt_length.2 hmem
      have hget : sysPath.get ⟨sysPath.indexOf (splitDir path), hlt⟩ = splitDir path := by
        simp [List.getElem_indexOf hlt]
      rw [List.eraseIdx_cons_succ, List.insertIdx_succ_cons]
      show (sysPath.eraseIdx _).insertIdx _ (splitDir path) = sysPath
      have hres := insertIdx_eraseIdx_self sysPath (sysPath.indexOf (splitDir path)) hlt
      rw [hget] at hres
      exact hres
  · rw [if_neg hmem, if_pos rfl]
    rfl

/-- C2 counterexample: a member passing every check `is_vlad` actually
performs but whose `validators` collection is empty is discovered anyway —
the code only tests `hasattr(item, "validators")`, never that the
collection is non-empty, contradicting the claim that such a member never
appears in the discovered mapping. -/
theorem C2_cex_empty_validators_discovered :
    emptyValidatorsVlad.validators = some [] ∧
    discover [("CheckAges", emptyValidatorsVlad)] =
      [("CheckAges", emptyValidatorsVlad)] := by
  exact ⟨rfl, by decide⟩

/-- C2 (amended): the discovered mapping contains exactly the exported
members that are classes, are `Vlad` subclasses, have a truthy (non-empty)
`source` attribute, merely *possess* a `validators` attribute (possibly
empty), and whose name does not start with an underscore. -/
theorem C2_discover_membership (moduleVars : List (String × PyClass))
    (name : String) (c : PyClass) :
    (name, c) ∈ discover moduleVars ↔
      (name, c) ∈ moduleVars ∧ c.isclass = true ∧ c.isVladSubclass = true ∧
      c.source.isSome = true ∧ truthySource c.source = true ∧
      c.validators.isSome = true ∧ strStartsWith name "_" = false := by
  simp only [discover, List.mem_filter, is_vlad, Bool.and_eq_true,
    Bool.not_eq_true', and_assoc]

/-- C10: `find_vladfile` asserts that its search root is a directory —
for every root that is not a directory it raises `AssertionError` before
examining any candidate. -/
theorem C10_find_vladfile_assert (fs : FileSystem) (name path : String)
    (h : fs.isdir path = false) :
    find_vladfile fs name path = .error "AssertionError" := by
  simp [find_vladfile, h]

/-- Concrete instance of `C10_find_vladfile_assert`: an environment with
no directories makes `find_vladfile` raise. -/
theorem C10_find_vladfile_assert_witness :
    noDirFS.isdir "/nope" = false ∧
    find_vladfile noDirFS "vladfile" "/nope" = .error "AssertionError" :=
  ⟨rfl, C10_find_vladfile_assert noDirFS "vladfile" "/nope" rfl⟩

/-- C3 counterexample: a selected unit's `validate()` returns a falsy
outcome in sequential mode, yet the exit classification is not
`DATA_ERROR`: the sequential loop discards every outcome and the function
falls off its end, returning `None` (process exit status 0). -/
theorem C3_cex_sequential_falsy_not_dataerr :
    failingVlad.validateResult = false ∧
    main sampleFS ⟨[], "vladfile", false, false, 1⟩
        [("CheckAges", failingVlad)] [] =
      .ok ⟨none, ["CheckAges"], none⟩ ∧
    (none : Option Nat) ≠ some EX_DATAERR := by
  refine ⟨rfl, by rfl, by simp⟩

/-- C3 (amended): only in concurrent mode is a falsy outcome turned into
`DATA_ERROR`, and only when it is the outcome sampled by the single
non-blocking queue read: if the invocation reaches dispatch with
`processes ≠ 1` and the first queued outcome is falsy, `main` returns
`EX_DATAERR`. (Sequential mode discards all outcomes.) -/
theorem C3_concurrent_sampled_falsy_dataerr (fs : FileSystem)
    (args : Arguments) (mv : List (String × PyClass)) (queue : List Bool)
    (pathFound : String)
    (hv : args.show_version = false) (hl : args.list_commands = false)
    (hfind : find_vladfile fs args.vladfile "." = .ok (some pathFound))
    (hne : (discover mv).isEmpty = false)
    (hsel : args.vlads.isEmpty = true ∨
      (select_missing (discover mv) args.vlads).isEmpty = true)
    (hp : args.processes ≠ 1) (rest : List Bool)
    (hq : queue = false :: rest) :
    ∃ r, main fs args mv queue = .ok r ∧ r.exitCode = some EX_DATAERR := by
  by_cases hav : args.vlads.isEmpty
  · simp only [main, hv, Bool.false_eq_true, if_false, hfind, hl, hne, hav,
      Bool.not_true, hp, ite_false]
    exact ⟨_, rfl, by simp [hq, concurrent_exit, EX_DATAERR]⟩
  · have hmiss : (select_missing (discover mv) args.vlads).isEmpty = true := by
      rcases hsel with h | h
      · exact absurd h hav
      · exact h
    simp only [main, hv, Bool.false_eq_true, if_false, hfind, hl, hne,
      Bool.not_eq_true', eq_false_of_ne_true hav, Bool.not_false, if_true,
      hmiss, Bool.not_true, hp, ite_false]
    exact ⟨_, rfl, by simp [hq, concurrent_exit, EX_DATAERR]⟩

/-- Concrete instance of `C3_concurrent_sampled_falsy_dataerr`: one unit,
two processes requested, a falsy outcome in the queue. -/
theorem C3_concurrent_sampled_falsy_dataerr_witness :
    ∃ r, main sampleFS ⟨[], "vladfile", false, false, 2⟩
        [("CheckAges", failingVlad)] [false] = .ok r ∧
      r.exitCode = some EX_DATAERR :=
  C3_concurrent_sampled_falsy_dataerr sampleFS
    ⟨[], "vladfile", false, false, 2⟩ [("CheckAges", failingVlad)] [false]
    "./vladfile.py" rfl rfl (by rfl) (by rfl) (Or.inl rfl)
    (by decide) [] rfl

/-- C4 counterexample: in sequential mode the first unit's `validate()`
reports failure, yet the later unit still runs (the loop never inspects
the outcome), and the aggregate is the implicit `None`, not `EX_OK`. -/
theorem C4_cex_sequential_no_abort :
    failingVlad.validateResult = false ∧
    main sampleFS ⟨[], "vladfile", false, false, 1⟩
        [("VladA", failingVlad), ("VladB", passingVlad)] [] =
      .ok ⟨none, ["VladA", "VladB"], none⟩ := by
  refine ⟨rfl, by rfl⟩

/-- C4 (amended): in sequential mode every selected unit runs, in the
selection's iteration order, regardless of each unit's outcome — a falsy
outcome aborts nothing — and `main` returns no explicit code (the
function falls through; `exit(None)` then makes the process status 0). -/
theorem C4_sequential_runs_all_in_order (fs : FileSystem)
    (args : Arguments) (mv : List (String × PyClass)) (queue : List Bool)
    (pathFound : String)
    (hv : args.show_version = false) (hl : args.list_commands = false)
    (hfind : find_vladfile fs args.vladfile "." = .ok (some pathFound))
    (hne : (discover mv).isEmpty = false)
    (hav : args.vlads.isEmpty = true) (hp : args.processes = 1) :
    main fs args mv queue = .ok ⟨none, (discover mv).map Prod.fst, none⟩ := by
  simp only [main, hv, Bool.false_eq_true, if_false, hfind, hl, hne, hav,
    Bool.not_true, hp, ite_true]

/-- Concrete instance of `C4_sequential_runs_all_in_order`: two units,
both executed in order, exit value `none`. -/
theorem C4_sequential_runs_all_in_order_witness :
    main sampleFS ⟨[], "vladfile", false, false, 1⟩
        [("VladA", failingVlad), ("VladB", passingVlad)] [] =
      .ok ⟨none,
        (discover [("VladA", failingVlad), ("VladB", passingVlad)]).map
          Prod.fst, none⟩ :=
  C4_sequential_runs_all_in_order sampleFS
    ⟨[], "vladfile", false, false, 1⟩
    [("VladA", failingVlad), ("VladB", passingVlad)] [] "./vladfile.py"
    rfl rfl (by rfl) (by rfl) rfl rfl

/-- Appending a suffix makes the suffix test succeed. -/
theorem strEndsWith_append (s suffix : String) :
    strEndsWith (s ++ suffix) suffix = true := by
  simp [strEndsWith, List.isSuffixOf, String.toList]

/-- `dict` lookup on an association list with pairwise-distinct keys finds
exactly the pairs of the list. -/
theorem lookup_eq_some_iff {d : List (String × PyClass)} {a : String}
    {b : PyClass} (h : (d.map Prod.fst).Nodup) :
    d.lookup a = some b ↔ (a, b) ∈ d := by
  induction d with
  | nil => simp
  | cons kv t ih =>
    obtain ⟨k, v⟩ := kv
    simp only [List.map_cons, List.nodup_cons] at h
    by_cases hak : a = k
    · subst hak
      rw [List.lookup_cons]
      simp only [beq_self_eq_true, List.mem_cons, Prod.mk.injEq, true_and]
      constructor
      · rintro hv
        injection hv with hv
        exact Or.inl hv.symm
      · rintro (rfl | hmem)
        · rfl
        · exact absurd (List.mem_map_of_mem Prod.fst hmem) h.1
    · rw [List.lookup_cons]
      have hbeq : (a == k) = false := beq_false_of_ne hak
      simp only [hbeq, List.mem_cons, Prod.mk.injEq]
      rw [ih h.2]
      constructor
      · exact Or.inr
      · rintro (⟨rfl, _⟩ | hmem)
        · exact absurd rfl hak
        · exact hmem

/-- Membership in the list-comprehension over the requested/discovered
name intersection: exactly the discovered pairs whose name was
requested. -/
theorem select_pairs_mem_iff (d : List (String × PyClass))
    (r : List String) (h : (d.map Prod.fst).Nodup) (p : String × PyClass) :
    p ∈ select_pairs d r ↔ p.1 ∈ r ∧ p ∈ d := by
  obtain ⟨a, b⟩ := p
  simp only [select_pairs, List.mem_filterMap, List.mem_filter,
    List.mem_dedup]
  constructor
  · rintro ⟨n, ⟨hnr, _⟩, hf⟩
    rcases hlook : d.lookup n with _ | c
    · rw [hlook] at hf
      simp at hf
    · rw [hlook] at hf
      simp only [Option.map_some'] at hf
      injection hf with hf
      cases hf
      exact ⟨hnr, (lookup_eq_some_iff h).1 hlook⟩
  · rintro ⟨har, hmem⟩
    refine ⟨a, ⟨har, ?_⟩, ?_⟩
    · have : a ∈ d.map Prod.fst := List.mem_map_of_mem Prod.fst hmem
      simpa using this
    · rw [(lookup_eq_some_iff h).2 hmem]
      rfl

/-- C5: selection with an empty request runs all discovered units;
requested names all present select exactly the requested units (duplicate
requests collapse); any absent requested name makes the whole invocation
fail with `EX_UNAVAILABLE`, the missing set is exactly `requested −
discovered`, and no unit runs. -/
theorem C5_selection (fs : FileSystem) (args : Arguments)
    (mv : List (String × PyClass)) (queue : List Bool) (pathFound : String)
    (hv : args.show_version = false) (hl : args.list_commands = false)
    (hfind : find_vladfile fs args.vladfile "." = .ok (some pathFound))
    (hne : (discover mv).isEmpty = false)
    (hnodup : (mv.map Prod.fst).Nodup) :
    (args.vlads = [] →
      ∃ r, main fs args mv queue = .ok r ∧
        r.executed = (discover mv).map Prod.fst) ∧
    ((∀ n ∈ args.vlads, n ∈ (discover mv).map Prod.fst) →
      select_missing (discover mv) args.vlads = [] ∧
      ∀ p : String × PyClass, p ∈ select_pairs (discover mv) args.vlads ↔
        p.1 ∈ args.vlads ∧ p ∈ discover mv) ∧
    (∀ n : String, n ∈ select_missing (discover mv) args.vlads ↔
      n ∈ args.vlads ∧ n ∉ (discover mv).map Prod.fst) ∧
    ((∃ n ∈ args.vlads, n ∉ (discover mv).map Prod.fst) →
      main fs args mv queue = .ok ⟨some EX_UNAVAILABLE, [], none⟩) := by
  have hkeysnodup : ((discover mv).map Prod.fst).Nodup :=
    List.Nodup.sublist
      (List.Sublist.map Prod.fst (List.filter_sublist mv)) hnodup
  refine ⟨?_, ?_, ?_, ?_⟩
  · intro hav
    have hav' : args.vlads.isEmpty = true := by simp [hav]
    by_cases hp : args.processes = 1
    · refine ⟨⟨none, (discover mv).map Prod.fst, none⟩, ?_, rfl⟩
      simp only [main, hv, Bool.false_eq_true, if_false, hfind, hl, hne,
        hav', Bool.not_true, hp, ite_true]
    · refine ⟨⟨some (concurrent_exit queue), (discover mv).map Prod.fst,
        some (pool_size args.processes ((discover mv).length))⟩, ?_, rfl⟩
      simp only [main, hv, Bool.false_eq_true, if_false, hfind, hl, hne,
        hav', Bool.not_true, hp, ite_false]
  · intro hall
    refine ⟨?_, fun p => select_pairs_mem_iff (discover mv) args.vlads
      hkeysnodup p⟩
    simp only [select_missing, List.filter_eq_nil_iff]
    intro n hn
    simp only [List.mem_dedup] at hn
    simp [hall n hn]
  · intro n
    simp [select_missing]
  · rintro ⟨n, hnr, hnk⟩
    have hne' : args.vlads.isEmpty = false := by
      cases hvl : args.vlads with
      | nil => rw [hvl] at hnr; cases hnr
      | cons x xs => rfl
    have hmem : n ∈ select_missing (discover mv) args.vlads := by
      simp [select_missing, hnr, hnk]
    have hmne : (select_missing (discover mv) args.vlads).isEmpty = false := by
      cases hsm : select_missing (discover mv) args.vlads with
      | nil => rw [hsm] at hmem; cases hmem
      | cons x xs => rfl
    simp only [main, hv, Bool.false_eq_true, if_false, hfind, hl, hne,
      hne', Bool.not_false, if_true, hmne, Bool.not_true, ite_true]

/-- Concrete instance of `C5_selection`: one discovered unit
`"CheckAges"`, request `["Nope"]`. -/
theorem C5_selection_witness :
    (((⟨["Nope"], "vladfile", false, false, 1⟩ : Arguments).vlads = []) →
      ∃ r, main sampleFS ⟨["Nope"], "vladfile", false, false, 1⟩
          [("CheckAges", passingVlad)] [] = .ok r ∧
        r.executed =
          (discover [("CheckAges", passingVlad)]).map Prod.fst) ∧
    ((∀ n ∈ (⟨["Nope"], "vladfile", false, false, 1⟩ : Arguments).vlads,
        n ∈ (discover [("CheckAges", passingVlad)]).map Prod.fst) →
      select_missing (discover [("CheckAges", passingVlad)]) ["Nope"] = [] ∧
      ∀ p : String × PyClass,
        p ∈ select_pairs (discover [("CheckAges", passingVlad)]) ["Nope"] ↔
          p.1 ∈ (⟨["Nope"], "vladfile", false, false, 1⟩ : Arguments).vlads ∧
          p ∈ discover [("CheckAges", passingVlad)]) ∧
    (∀ n : String,
      n ∈ select_missing (discover [("CheckAges", passingVlad)]) ["Nope"] ↔
        n ∈ (⟨["Nope"], "vladfile", false, false, 1⟩ : Arguments).vlads ∧
        n ∉ (discover [("CheckAges", passingVlad)]).map Prod.fst) ∧
    ((∃ n ∈ (⟨["Nope"], "vladfile", false, false, 1⟩ : Arguments).vlads,
        n ∉ (discover [("CheckAges", passingVlad)]).map Prod.fst) →
      main sampleFS ⟨["Nope"], "vladfile", false, false, 1⟩
          [("CheckAges", passingVlad)] [] =
        .ok ⟨some EX_UNAVAILABLE, [], none⟩) :=
  C5_selection sampleFS ⟨["Nope"], "vladfile", false, false, 1⟩
    [("CheckAges", passingVlad)] [] "./vladfile.py" rfl rfl (by rfl)
    (by decide) (by decide)

/-- C6: bare-name path resolution — `name` without the extension falls
back to `name + ".py"`; a present `name.py` resolves directly; when no
candidate both exists and is acceptable (a `.py` file or a package
directory), resolution returns not-found. -/
theorem C6_find_vladfile_fallback (fs : FileSystem) (dir name : String)
    (hdir : fs.isdir dir = true) (hbare : has_dirname name = false) :
    (strEndsWith name ".py" = false →
      fs.pathExists (joinPath dir name) = false →
      fs.pathExists (joinPath dir (name ++ ".py")) = true →
      find_vladfile fs name dir =
        .ok (some (fs.abspath (joinPath dir (name ++ ".py"))))) ∧
    (strEndsWith name ".py" = true →
      fs.pathExists (joinPath dir name) = true →
      find_vladfile fs name dir =
        .ok (some (fs.abspath (joinPath dir name)))) ∧
    ((fs.pathExists (joinPath dir name) = false ∨
        (strEndsWith name ".py" = false ∧
          _is_package fs (joinPath dir name) = false)) →
      fs.pathExists (joinPath dir (name ++ ".py")) = false →
      find_vladfile fs name dir = .ok none) := by
  refine ⟨?_, ?_, ?_⟩
  · intro hpy h1 h2
    simp [find_vladfile, hdir, hbare, hpy, findAccepted, h1, h2,
      strEndsWith_append]
  · intro hpy h1
    simp [find_vladfile, hdir, hbare, hpy, findAccepted, h1]
  · intro hc h2
    rcases hc with h1 | ⟨hpy, hpkg⟩
    · by_cases hpy : strEndsWith name ".py"
      · simp [find_vladfile, hdir, hbare, hpy, findAccepted, h1]
      · simp [find_vladfile, hdir, hbare,
          Bool.not_eq_true _ ▸ hpy, findAccepted, h1, h2]
    · by_cases h1 : fs.pathExists (joinPath dir name)
      · simp [find_vladfile, hdir, hbare, hpy, findAccepted, h1, hpkg, h2]
      · simp [find_vladfile, hdir, hbare, hpy, findAccepted,
          Bool.not_eq_true _ ▸ h1, h2]

/-- Concrete instance of `C6_find_vladfile_fallback` in a directory
holding only `./vladfile.py`. -/
theorem C6_find_vladfile_fallback_witness :
    (strEndsWith "vladfile" ".py" = false →
      sampleFS.pathExists (joinPath "." "vladfile") = false →
      sampleFS.pathExists (joinPath "." ("vladfile" ++ ".py")) = true →
      find_vladfile sampleFS "vladfile" "." =
        .ok (some (sampleFS.abspath
          (joinPath "." ("vladfile" ++ ".py"))))) ∧
    (strEndsWith "vladfile" ".py" = true →
      sampleFS.pathExists (joinPath "." "vladfile") = true →
      find_vladfile sampleFS "vladfile" "." =
        .ok (some (sampleFS.abspath (joinPath "." "vladfile")))) ∧
    ((sampleFS.pathExists (joinPath "." "vladfile") = false ∨
        (strEndsWith "vladfile" ".py" = false ∧
          _is_package sampleFS (joinPath "." "vladfile") = false)) →
      sampleFS.pathExists (joinPath "." ("vladfile" ++ ".py")) = false →
      find_vladfile sampleFS "vladfile" "." = .ok none) :=
  C6_find_vladfile_fallback sampleFS "." "vladfile" rfl rfl

/-- C7: in concurrent mode, after the pool drains, the exit code is
computed by one non-blocking read of the shared queue: a falsy sampled
outcome gives `EX_DATAERR`, an empty queue gives `EX_OK`, a truthy sample
gives `EX_OK`, and outcomes beyond the first are never inspected (the
result only depends on `queue.take 1`). -/
theorem C7_concurrent_single_read (fs : FileSystem) (args : Arguments)
    (mv : List (String × PyClass)) (queue : List Bool) (pathFound : String)
    (hv : args.show_version = false) (hl : args.list_commands = false)
    (hfind : find_vladfile fs args.vladfile "." = .ok (some pathFound))
    (hne : (discover mv).isEmpty = false)
    (hsel : args.vlads.isEmpty = true ∨
      (select_missing (discover mv) args.vlads).isEmpty = true)
    (hp : args.processes ≠ 1) :
    (∃ r, main fs args mv queue = .ok r ∧
      r.exitCode = some (concurrent_exit queue)) ∧
    concurrent_exit queue = concurrent_exit (queue.take 1) ∧
    (queue.head? = some false → concurrent_exit queue = EX_DATAERR) ∧
    (queue = [] → concurrent_exit queue = EX_OK) ∧
    (queue.head? = some true → concurrent_exit queue = EX_OK) := by
  refine ⟨?_, ?_, ?_, ?_, ?_⟩
  · by_cases hav : args.vlads.isEmpty
    · refine ⟨⟨some (concurrent_exit queue), (discover mv).map Prod.fst,
        some (pool_size args.processes ((discover mv).length))⟩, ?_, rfl⟩
      simp only [main, hv, Bool.false_eq_true, if_false, hfind, hl, hne,
        hav, Bool.not_true, hp, ite_false]
    · have hmiss : (select_missing (discover mv) args.vlads).isEmpty = true := by
        rcases hsel with h | h
        · exact absurd h hav
        · exact h
      refine ⟨⟨some (concurrent_exit queue),
        (select_pairs (discover mv) args.vlads).map Prod.fst,
        some (pool_size args.processes
          ((select_pairs (discover mv) args.vlads).length))⟩, ?_, rfl⟩
      simp only [main, hv, Bool.false_eq_true, if_false, hfind, hl, hne,
        Bool.not_eq_true', eq_false_of_ne_true hav, Bool.not_false,
        if_true, hmiss, Bool.not_true, hp, ite_false]
  · cases queue <;> rfl
  · intro h
    cases queue with
    | nil => cases h
    | cons b t =>
      have hb : b = false := by injection h
      simp [concurrent_exit, hb]
  · intro h
    subst h
    rfl
  · intro h
    cases queue with
    | nil => cases h
    | cons b t =>
      have hb : b = true := by injection h
      simp [concurrent_exit, hb]

/-- Concrete instance of `C7_concurrent_single_read`: the queue holds a
truthy outcome followed by a falsy one; only the first is sampled. -/
theorem C7_concurrent_single_read_witness :
    (∃ r, main sampleFS ⟨[], "vladfile", false, false, 2⟩
        [("VladA", passingVlad), ("VladB", failingVlad)] [true, false] =
          .ok r ∧
      r.exitCode = some (concurrent_exit [true, false])) ∧
    concurrent_exit [true, false] =
      concurrent_exit ([true, false].take 1) ∧
    (([true, false] : List Bool).head? = some false →
      concurrent_exit [true, false] = EX_DATAERR) ∧
    (([true, false] : List Bool) = [] →
      concurrent_exit [true, false] = EX_OK) ∧
    (([true, false] : List Bool).head? = some true →
      concurrent_exit [true, false] = EX_OK) :=
  C7_concurrent_single_read sampleFS ⟨[], "vladfile", false, false, 2⟩
    [("VladA", passingVlad), ("VladB", failingVlad)] [true, false]
    "./vladfile.py" rfl rfl (by rfl) (by decide) (Or.inl rfl) (by decide)

/-- C8: the pool sizing expression equals `min(requested_concurrency,
unit_count)`, and in concurrent mode `main` constructs its pool with
exactly that size. -/
theorem C8_pool_sized_min (fs : FileSystem) (args : Arguments)
    (mv : List (String × PyClass)) (queue : List Bool) (pathFound : String)
    (hv : args.show_version = false) (hl : args.list_commands = false)
    (hfind : find_vladfile fs args.vladfile "." = .ok (some pathFound))
    (hne : (discover mv).isEmpty = false)
    (hav : args.vlads.isEmpty = true) (hp : 1 < args.processes) :
    (∀ (p : Int) (n : Nat), pool_size p n = min p n) ∧
    ∃ r, main fs args mv queue = .ok r ∧
      r.poolSize = some (min args.processes ((discover mv).length)) := by
  have hps : ∀ (p : Int) (n : Nat), pool_size p n = min p n := by
    intro p n
    rw [pool_size, min_def]
  refine ⟨hps, ?_⟩
  have hp1 : args.processes ≠ 1 := hp.ne'
  refine ⟨⟨some (concurrent_exit queue), (discover mv).map Prod.fst,
    some (pool_size args.processes ((discover mv).length))⟩, ?_, ?_⟩
  · simp only [main, hv, Bool.false_eq_true, if_false, hfind, hl, hne,
      hav, Bool.not_true, hp1, ite_false]
  · simp [hps]

/-- Concrete instance of `C8_pool_sized_min`: five processes requested,
two units discovered, pool sized two. -/
theorem C8_pool_sized_min_witness :
    (∀ (p : Int) (n : Nat), pool_size p n = min p n) ∧
    ∃ r, main sampleFS ⟨[], "vladfile", false, false, 5⟩
        [("VladA", passingVlad), ("VladB", passingVlad)] [true] = .ok r ∧
      r.poolSize = some (min 5
        ((discover [("VladA", passingVlad), ("VladB", passingVlad)]).length)) :=
  C8_pool_sized_min sampleFS ⟨[], "vladfile", false, false, 5⟩
    [("VladA", passingVlad), ("VladB", passingVlad)] [true]
    "./vladfile.py" rfl rfl (by rfl) (by decide) rfl (by decide)

/-- C9: with the `--list` flag, `main` exits `EX_OK` right after printing
the discovered names — the statement holds for an arbitrary member list,
in particular when zero eligible units were discovered, because the
empty-discovery `EX_NOINPUT` check only comes after the list branch. -/
theorem C9_list_exits_ok (fs : FileSystem) (args : Arguments)
    (mv : List (String × PyClass)) (queue : List Bool) (pathFound : String)
    (hv : args.show_version = false) (hl : args.list_commands = true)
    (hfind : find_vladfile fs args.vladfile "." = .ok (some pathFound)) :
    main fs args mv queue = .ok ⟨some EX_OK, [], none⟩ := by
  simp only [main, hv, Bool.false_eq_true, if_false, hfind, hl, ite_true]

/-- Concrete instance of `C9_list_exits_ok` with an empty module — zero
eligible units, yet listing exits `EX_OK`, not `EX_NOINPUT`. -/
theorem C9_list_exits_ok_witness :
    main sampleFS ⟨[], "vladfile", true, false, 1⟩ [] [] =
      .ok ⟨some EX_OK, [], none⟩ :=
  C9_list_exits_ok sampleFS ⟨[], "vladfile", true, false, 1⟩ [] []
    "./vladfile.py" rfl rfl (by rfl)

end Theorems

end Vladiate
